import Mathlib

/-!
Shallow embedding of the TTL cache subsystem of goobie-bot
(`src/api/cache.py`): `CacheEntry`, `CacheManager`, the `cache_result`
decorator and the cache-key generators.

Modelling conventions:
* Python `dict[str, CacheEntry]` is an insertion-ordered association list
  `List (String × CacheEntry V)`; `dict` assignment replaces in place when
  the key is present and appends otherwise, deletion removes the entry
  with the given key.
* `time.time()` is an explicit `now : Nat` argument threaded into each
  operation (each Python operation reads the clock while holding the lock).
* A Python value that may be `None` is `Option V`; `none` is Python `None`,
  which is also the sentinel `get` returns on a miss.
* Python's `x or DEFAULT` idiom treats both `None` and `0` as falsy, and
  `CacheEntry.__init__`'s `if ttl` likewise; both are modelled explicitly.
-/

namespace GoobieBot

/-- Python dict lookup `d.get(k)` / `d[k]` on an association list. -/
def dictGet {E : Type} (d : List (String × E)) (k : String) : Option E :=
  match d with
  | [] => none
  | (k', e) :: rest => if k' = k then some e else dictGet rest k

/-- Python dict assignment `d[k] = e`: replace in place if present, else append. -/
def dictSet {E : Type} (d : List (String × E)) (k : String) (e : E) :
    List (String × E) :=
  match d with
  | [] => [(k, e)]
  | (k', e') :: rest =>
      if k' = k then (k, e) :: rest else (k', e') :: dictSet rest k e

/-- Python dict deletion `del d[k]`. -/
def dictDel {E : Type} (d : List (String × E)) (k : String) :
    List (String × E) :=
  d.filter (fun p => !(p.1 == k))

/-- Boolean membership of a key in a list of keys (`k in ks`). -/
def keyIn (ks : List String) (k : String) : Bool :=
  match ks with
  | [] => false
  | k' :: rest => if k' = k then true else keyIn rest k

/-- `CACHE_DURATIONS` table from `src/api/cache.py` (seconds). -/
def CACHE_DUR : List (String × Nat) :=
  [("game_data", 1800), ("team_logos", 86400), ("venue_data", 86400),
   ("team_metadata", 7200), ("team_names", 86400)]

/-- `CACHE_DURATIONS.get(cache_type)`. -/
def durationFor (cache_type : String) : Option Nat :=
  dictGet CACHE_DUR cache_type

def DEFAULT_CACHE_SIZE_LIMIT : Nat := 100

def DEFAULT_MEMORY_LIMIT_MB : Nat := 512

/-- `CacheEntry` record (`src/api/cache.py`). `value` is a Python object
that may itself be `None`. -/
structure CacheEntry (V : Type) where
  value : Option V
  created_at : Nat
  ttl : Option Nat
  expires_at : Option Nat
  access_count : Nat
  last_accessed : Nat
  deriving DecidableEq, Repr

/-- `CacheEntry.__init__(value, ttl)` at clock `now`; note
`expires_at = created_at + ttl if ttl else None`, where a `ttl` of `0` is
falsy in Python and also yields no expiry. -/
def CacheEntry.make {V : Type} (value : Option V) (ttl : Option Nat)
    (now : Nat) : CacheEntry V :=
  { value := value
    created_at := now
    ttl := ttl
    expires_at :=
      match ttl with
      | none => none
      | some t => if t = 0 then none else some (now + t)
    access_count := 0
    last_accessed := now }

/-- `CacheEntry.is_expired`: `time.time() > expires_at`, false when no expiry. -/
def CacheEntry.is_expired {V : Type} (e : CacheEntry V) (now : Nat) : Bool :=
  match e.expires_at with
  | none => false
  | some t => decide (t < now)

/-- `CacheEntry.access`: bump `access_count`, refresh `last_accessed`,
return the stored value. -/
def CacheEntry.access {V : Type} (e : CacheEntry V) (now : Nat) :
    Option V × CacheEntry V :=
  (e.value, { e with access_count := e.access_count + 1, last_accessed := now })

/-- `CacheManager` state: entry map plus the `_stats` counters and the
configured (advisory) limits. -/
structure CacheManager (V : Type) where
  cache : List (String × CacheEntry V)
  hits : Nat
  misses : Nat
  sets : Nat
  deletes : Nat
  clears : Nat
  evictions : Nat
  memory_warnings : Nat
  max_entries : Nat
  memory_limit_bytes : Nat
  deriving DecidableEq, Repr

/-- `CacheManager.__init__(max_entries, memory_limit_mb)`; Python's
`max_entries or DEFAULT_CACHE_SIZE_LIMIT` treats `None` and `0` as falsy. -/
def CacheManager.init {V : Type} (max_entries : Option Nat)
    (memory_limit_mb : Option Nat) : CacheManager V :=
  { cache := []
    hits := 0, misses := 0, sets := 0, deletes := 0, clears := 0
    evictions := 0, memory_warnings := 0
    max_entries :=
      match max_entries with
      | none => DEFAULT_CACHE_SIZE_LIMIT
      | some n => if n = 0 then DEFAULT_CACHE_SIZE_LIMIT else n
    memory_limit_bytes :=
      (match memory_limit_mb with
       | none => DEFAULT_MEMORY_LIMIT_MB
       | some n => if n = 0 then DEFAULT_MEMORY_LIMIT_MB else n) * 1024 * 1024 }

/-- `CacheManager.get(key)` at clock `now`: returns the Python return value
and the successor state. -/
def CacheManager.get {V : Type} (m : CacheManager V) (key : String)
    (now : Nat) : Option V × CacheManager V :=
  match dictGet m.cache key with
  | none => (none, { m with misses := m.misses + 1 })
  | some entry =>
      if entry.is_expired now then
        (none, { m with cache := dictDel m.cache key, misses := m.misses + 1 })
      else
        let r := entry.access now
        (r.1, { m with cache := dictSet m.cache key r.2, hits := m.hits + 1 })

/-- `CacheManager.set(key, value, cache_type)` at clock `now`. -/
def CacheManager.set {V : Type} (m : CacheManager V) (key : String)
    (value : Option V) (cache_type : String) (now : Nat) : CacheManager V :=
  let ttl := durationFor cache_type
  let entry := CacheEntry.make value ttl now
  { m with cache := dictSet m.cache key entry, sets := m.sets + 1 }

/-- `CacheManager.delete(key)`. -/
def CacheManager.delete {V : Type} (m : CacheManager V) (key : String) :
    Bool × CacheManager V :=
  if (dictGet m.cache key).isSome then
    (true, { m with cache := dictDel m.cache key, deletes := m.deletes + 1 })
  else
    (false, m)

/-- `CacheManager.clear(cache_type)`: clear everything, or only the keys
starting with `cache_type + "_"`. -/
def CacheManager.clear {V : Type} (m : CacheManager V)
    (cache_type : Option String) : Nat × CacheManager V :=
  match cache_type with
  | none =>
      (m.cache.length, { m with cache := [], clears := m.clears + 1 })
  | some ct =>
      let keys_to_delete :=
        (m.cache.map Prod.fst).filter (fun k => k.startsWith (ct ++ "_"))
      let cache2 := keys_to_delete.foldl (fun c k => dictDel c k) m.cache
      (keys_to_delete.length, { m with cache := cache2, clears := m.clears + 1 })

/-- `CacheManager.cleanup_expired()` at clock `now`. -/
def CacheManager.cleanup_expired {V : Type} (m : CacheManager V) (now : Nat) :
    Nat × CacheManager V :=
  let expired_keys := (m.cache.filter (fun p => p.2.is_expired now)).map Prod.fst
  let cache2 := expired_keys.foldl (fun c k => dictDel c k) m.cache
  (expired_keys.length, { m with cache := cache2 })

/-- Exact rational multiplication, via `mkRat` so it evaluates by kernel
reduction (the `Batteries` arithmetic on `Rat` is `@[irreducible]`). -/
def ratMul (a b : ℚ) : ℚ := mkRat (a.num * b.num) (a.den * b.den)

/-- Exact rational subtraction. -/
def ratSub (a b : ℚ) : ℚ :=
  mkRat (a.num * Int.ofNat b.den - b.num * Int.ofNat a.den) (a.den * b.den)

/-- Exact rational inverse (`0⁻¹ = 0`). -/
def ratInv (a : ℚ) : ℚ :=
  if a.num < 0 then mkRat (-(Int.ofNat a.den)) a.num.natAbs
  else mkRat (Int.ofNat a.den) a.num.natAbs

/-- Exact rational division, Python's true division `/`. -/
def ratDiv (a b : ℚ) : ℚ := ratMul a (ratInv b)

/-- Floor of a rational, written with `Int.fdiv` so the kernel can
evaluate it directly. -/
def ratFloor (q : ℚ) : ℤ := q.num.fdiv q.den

/-- Fractional part `q - ⌊q⌋`. -/
def ratFract (q : ℚ) : ℚ := ratSub q (mkRat (ratFloor q) 1)

/-- Python `round(q)` on an integer scale: round half to even. The
arithmetic uses the primitive `Rat` operations so the definition evaluates
by kernel reduction. -/
def roundHalfEven (q : ℚ) : ℤ :=
  if Rat.blt (ratFract q) (mkRat 1 2) then ratFloor q
  else if Rat.blt (mkRat 1 2) (ratFract q) then ratFloor q + 1
  else if ratFloor q % 2 = 0 then ratFloor q else ratFloor q + 1

/-- Python `round(q, 2)`. -/
def pyRound2 (q : ℚ) : ℚ := mkRat (roundHalfEven (ratMul q (mkRat 100 1))) 100

/-- The dictionary returned by `CacheManager.get_stats()`. -/
structure CacheStats where
  hits : Nat
  misses : Nat
  sets : Nat
  deletes : Nat
  clears : Nat
  hit_rate : ℚ
  total_entries : Nat
  total_requests : Nat
  deriving DecidableEq, Repr

/-- `CacheManager.get_stats()`. -/
def CacheManager.get_stats {V : Type} (m : CacheManager V) : CacheStats :=
  let total_requests := m.hits + m.misses
  let hit_rate : ℚ :=
    if total_requests > 0 then
      ratMul (ratDiv (mkRat (Int.ofNat m.hits) 1)
        (mkRat (Int.ofNat total_requests) 1)) (mkRat 100 1)
    else 0
  { hits := m.hits, misses := m.misses, sets := m.sets, deletes := m.deletes
    clears := m.clears, hit_rate := pyRound2 hit_rate
    total_entries := m.cache.length, total_requests := total_requests }

/-- One call through the `cache_result` decorator's `wrapper`, after the
cache key has been computed. `func_result` is the value the wrapped async
function would produce; the last component counts how many times the
wrapped function was invoked during the call. -/
def cache_result_call {V : Type} (m : CacheManager V)
    (cache_type cache_key : String) (func_result : Option V) (now : Nat) :
    Option V × CacheManager V × Nat :=
  let r := m.get cache_key now
  match r.1 with
  | some v => (some v, r.2, 0)
  | none =>
      let m2 :=
        match func_result with
        | some _ => r.2.set cache_key func_result cache_type now
        | none => r.2
      (func_result, m2, 1)

/-- `str.lower()` (ASCII case mapping, which covers the names used here). -/
def pyLower (s : String) : String := String.mk (s.data.map Char.toLower)

/-- `str.replace(a, b)` for single-character `a`, `b`: every occurrence of
the character `a` becomes `b`. -/
def pyReplaceChar (s : String) (a b : Char) : String :=
  String.mk (s.data.map (fun c => if c = a then b else c))

/-- `str.strip()`: drop leading and trailing whitespace. -/
def pyStrip (s : String) : String :=
  String.mk
    (((s.data.dropWhile Char.isWhitespace).reverse.dropWhile
        Char.isWhitespace).reverse)

/-- `team_logos_by_name_key(team_name)` from `src/api/cache.py`. -/
def team_logos_by_name_key (team_name : String) : String :=
  "team_logos_name_" ++ pyReplaceChar (pyLower team_name) ' ' '_'

/-- One cache operation, for reasoning about operation sequences. -/
inductive CacheOp (V : Type) where
  | get (key : String) (now : Nat)
  | set (key : String) (value : Option V) (cache_type : String) (now : Nat)
  | delete (key : String)
  | clear (cache_type : Option String)
  | cleanup_expired (now : Nat)
  | get_stats

/-- State transition of a single operation (return values discarded). -/
def CacheManager.step {V : Type} (m : CacheManager V) :
    CacheOp V → CacheManager V
  | .get k now => (m.get k now).2
  | .set k v ct now => m.set k v ct now
  | .delete k => (m.delete k).2
  | .clear ct => (m.clear ct).2
  | .cleanup_expired now => (m.cleanup_expired now).2
  | .get_stats => m

/-- Run a sequence of operations. -/
def CacheManager.run {V : Type} (m : CacheManager V) (ops : List (CacheOp V)) :
    CacheManager V :=
  ops.foldl CacheManager.step m

/-- Example entry with a 10-second TTL, created at clock 0. -/
def exEntryLive : CacheEntry Nat := CacheEntry.make (some 5) (some 10) 0

/-- Example entry with no TTL, created at clock 0. -/
def exEntryPerm : CacheEntry Nat := CacheEntry.make (some 7) none 0

/-- Freshly initialized manager. -/
def exMgr0 : CacheManager Nat := CacheManager.init none none

/-- Manager holding one TTL-bearing entry. -/
def exMgrLive : CacheManager Nat := { exMgr0 with cache := [("k", exEntryLive)] }

/-- Manager holding one TTL-bearing entry and one permanent entry, under
keys with different category style name parts. -/
def exMgrMix : CacheManager Nat :=
  { exMgr0 with cache := [("game_data_a", exEntryLive), ("team_logos_a", exEntryPerm)] }

/-- Manager that has seen 3 hits and 1 miss. -/
def exMgrStats : CacheManager Nat := { exMgr0 with hits := 3, misses := 1 }

/-! ### Association-list dictionary lemmas -/

theorem dictGet_dictSet_self {E : Type} (d : List (String × E)) (k : String)
    (e : E) : dictGet (dictSet d k e) k = some e := by
  induction d with
  | nil => simp [dictSet, dictGet]
  | cons hd tl ih =>
      obtain ⟨ka, ea⟩ := hd
      by_cases h : ka = k
      · subst h; simp [dictSet, dictGet]
      · simp [dictSet, dictGet, h, ih]

theorem dictGet_dictSet_ne {E : Type} (d : List (String × E)) (k k' : String)
    (e : E) (h : k' ≠ k) : dictGet (dictSet d k e) k' = dictGet d k' := by
  induction d with
  | nil => simp [dictSet, dictGet, Ne.symm h]
  | cons hd tl ih =>
      obtain ⟨ka, ea⟩ := hd
      by_cases hk : ka = k
      · subst hk; simp [dictSet, dictGet, Ne.symm h]
      · simp [dictSet, dictGet, hk, ih]

theorem dictSet_eq_append {E : Type} (d : List (String × E)) (k : String)
    (e : E) (h : dictGet d k = none) : dictSet d k e = d ++ [(k, e)] := by
  induction d with
  | nil => simp [dictSet]
  | cons hd tl ih =>
      obtain ⟨ka, ea⟩ := hd
      by_cases hk : ka = k
      · subst hk; simp [dictGet] at h
      · simp only [dictGet, if_neg hk] at h
        simp [dictSet, hk, ih h]

theorem dictGet_append_of_none {E : Type} (d1 d2 : List (String × E))
    (k : String) (h : dictGet d1 k = none) :
    dictGet (d1 ++ d2) k = dictGet d2 k := by
  induction d1 with
  | nil => simp
  | cons hd tl ih =>
      obtain ⟨ka, ea⟩ := hd
      by_cases hk : ka = k
      · subst hk; simp [dictGet] at h
      · simp only [dictGet, if_neg hk] at h
        simp [dictGet, hk, ih h]

theorem keyIn_iff {ks : List String} {k : String} :
    keyIn ks k = true ↔ k ∈ ks := by
  induction ks with
  | nil => simp [keyIn]
  | cons a tl ih =>
      by_cases h : a = k
      · subst h; simp [keyIn]
      · simp [keyIn, h, ih, Ne.symm h]

theorem dictGet_isSome_iff {E : Type} {d : List (String × E)} {k : String} :
    (dictGet d k).isSome = true ↔ k ∈ d.map Prod.fst := by
  induction d with
  | nil => simp [dictGet]
  | cons hd tl ih =>
      obtain ⟨ka, ea⟩ := hd
      by_cases h : ka = k
      · subst h; simp [dictGet]
      · simp [dictGet, h, ih, Ne.symm h]

theorem foldl_dictDel_eq_filter {E : Type} (ks : List String)
    (d : List (String × E)) :
    ks.foldl (fun c k => dictDel c k) d =
      d.filter (fun p => !(keyIn ks p.1)) := by
  induction ks generalizing d with
  | nil => simp [keyIn]
  | cons a tl ih =>
      rw [List.foldl_cons, ih, dictDel, List.filter_filter]
      refine List.filter_congr ?_
      intro p _
      by_cases h : p.1 = a
      · simp [keyIn, h]
      · simp [keyIn, Ne.symm h, h]

theorem eq_of_mem_of_nodup_keys {E : Type} {l : List (String × E)}
    (hnd : (l.map Prod.fst).Nodup) {p q : String × E}
    (hp : p ∈ l) (hq : q ∈ l) (hk : p.1 = q.1) : p = q := by
  induction l with
  | nil => cases hp
  | cons a tl ih =>
      rw [List.map_cons, List.nodup_cons] at hnd
      rcases List.mem_cons.1 hp with hp1 | hp1 <;>
        rcases List.mem_cons.1 hq with hq1 | hq1
      · rw [hp1, hq1]
      · exfalso
        apply hnd.1
        have : q.1 ∈ tl.map Prod.fst := List.mem_map_of_mem Prod.fst hq1
        rw [hp1] at hk
        rw [← hk] at this
        exact this
      · exfalso
        apply hnd.1
        have : p.1 ∈ tl.map Prod.fst := List.mem_map_of_mem Prod.fst hp1
        rw [hq1] at hk
        rw [hk] at this
        exact this
      · exact ih hnd.2 hp1 hq1

theorem foldl_set_cache {V : Type} (ks : List String) (f : String → Option V)
    (ct : String) (now : Nat) (m : CacheManager V) :
    (ks.foldl (fun acc k => acc.set k (f k) ct now) m).cache =
      ks.foldl
        (fun c k => dictSet c k (CacheEntry.make (f k) (durationFor ct) now))
        m.cache := by
  induction ks generalizing m with
  | nil => rfl
  | cons a tl ih => rw [List.foldl_cons, List.foldl_cons, ih]; rfl

theorem foldl_dictSet_map_fst {E : Type} (ks : List String) (g : String → E)
    (d : List (String × E)) (hf : ∀ k ∈ ks, dictGet d k = none)
    (hnd : ks.Nodup) :
    (ks.foldl (fun c k => dictSet c k (g k)) d).map Prod.fst =
      d.map Prod.fst ++ ks := by
  induction ks generalizing d with
  | nil => simp
  | cons a tl ih =>
      rw [List.foldl_cons, dictSet_eq_append d a (g a) (hf a (by simp))]
      have h2 : ∀ k ∈ tl, dictGet (d ++ [(a, g a)]) k = none := by
        intro k hk
        rw [dictGet_append_of_none d _ k (hf k (List.mem_cons_of_mem a hk))]
        have hka : a ≠ k := by
          rintro rfl
          exact (List.nodup_cons.1 hnd).1 hk
        simp [dictGet, hka]
      rw [ih (d ++ [(a, g a)]) h2 (List.nodup_cons.1 hnd).2]
      simp

theorem pyRound2_zero : pyRound2 0 = 0 := by decide

/-! ### Claims -/

/-- C1: `CacheManager.get` on an absent key bumps `misses` and returns the
absent sentinel; on a present but expired entry it removes the entry,
bumps `misses` and returns the sentinel; otherwise it bumps the entry's
`access_count`, refreshes its `last_accessed`, bumps `hits` and returns
the stored value unchanged. -/
theorem c1_get_behavior {V : Type} (m : CacheManager V) (key : String)
    (now : Nat) :
    (dictGet m.cache key = none →
       m.get key now = (none, { m with misses := m.misses + 1 })) ∧
    (∀ e : CacheEntry V, dictGet m.cache key = some e →
       e.is_expired now = true →
       m.get key now =
         (none,
          { m with cache := dictDel m.cache key, misses := m.misses + 1 })) ∧
    (∀ e : CacheEntry V, dictGet m.cache key = some e →
       e.is_expired now = false →
       m.get key now =
         (e.value,
          { m with
              cache := dictSet m.cache key
                { e with access_count := e.access_count + 1,
                         last_accessed := now }
              hits := m.hits + 1 })) := by
  refine ⟨fun h => ?_, fun e he hexp => ?_, fun e he hexp => ?_⟩ <;>
    simp [CacheManager.get, CacheEntry.access, *]

/-- Witness for C1 at concrete states: an absent key, an expired entry and
a live entry. -/
theorem c1_get_behavior_witness :
    exMgr0.get "a" 0 = (none, { exMgr0 with misses := exMgr0.misses + 1 }) ∧
    exMgrLive.get "k" 99 =
      (none,
       { exMgrLive with cache := dictDel exMgrLive.cache "k",
                        misses := exMgrLive.misses + 1 }) ∧
    exMgrLive.get "k" 3 =
      (exEntryLive.value,
       { exMgrLive with
           cache := dictSet exMgrLive.cache "k"
             { exEntryLive with
                 access_count := exEntryLive.access_count + 1,
                 last_accessed := 3 }
           hits := exMgrLive.hits + 1 }) :=
  ⟨(c1_get_behavior exMgr0 "a" 0).1 (by decide),
   (c1_get_behavior exMgrLive "k" 99).2.1 exEntryLive (by decide) (by decide),
   (c1_get_behavior exMgrLive "k" 3).2.2 exEntryLive (by decide) (by decide)⟩

/-- C2 counterexample: the claim as stated fails, because
`str.replace(' ', '_')` maps every single space to an underscore, so the
stripped variant with an internal run of three spaces yields a different
key than `"LA Galaxy"`. -/
theorem c2_key_normalization_counterexample :
    ¬ (team_logos_by_name_key "LA Galaxy" =
         team_logos_by_name_key "la galaxy" ∧
       team_logos_by_name_key "LA Galaxy" =
         team_logos_by_name_key (pyStrip " LA   Galaxy ") ∧
       team_logos_by_name_key "LA Galaxy" = "team_logos_name_la_galaxy") := by
  decide

/-- C2 amended: the key generator is case-insensitive and
`team_logos_by_name_key "LA Galaxy"` is the literal
`"team_logos_name_la_galaxy"`, but whitespace runs are not collapsed: each
space becomes one underscore, so the stripped multi-space variant yields
the distinct key `"team_logos_name_la___galaxy"`. -/
theorem c2_key_normalization_amended :
    team_logos_by_name_key "LA Galaxy" = team_logos_by_name_key "la galaxy" ∧
    team_logos_by_name_key "LA Galaxy" = "team_logos_name_la_galaxy" ∧
    team_logos_by_name_key (pyStrip " LA   Galaxy ") =
      "team_logos_name_la___galaxy" := by
  decide

/-- C3: `set` under a category that is not in the TTL table (for example
the literal `"default"`) stores an entry whose `ttl` and `expires_at` are
both absent, and a `get` of that key at any later clock value still
returns the stored value. -/
theorem c3_unknown_category_never_expires {V : Type} (m : CacheManager V)
    (key : String) (value : Option V) (cache_type : String) (now : Nat)
    (h : durationFor cache_type = none) :
    dictGet (m.set key value cache_type now).cache key =
      some { value := value, created_at := now, ttl := none,
             expires_at := none, access_count := 0, last_accessed := now } ∧
    ∀ t : Nat, ((m.set key value cache_type now).get key t).1 = value := by
  have hget : dictGet (m.set key value cache_type now).cache key =
      some (CacheEntry.make value none now) := by
    simp [CacheManager.set, h, dictGet_dictSet_self]
  refine ⟨by simpa [CacheEntry.make] using hget, fun t => ?_⟩
  simp [CacheManager.get, hget, CacheEntry.is_expired, CacheEntry.make,
    CacheEntry.access]

/-- Witness for C3: `"default"` is not in `CACHE_DURATIONS`; the value set
at clock 0 is still returned at clock 1000000000. -/
theorem c3_unknown_category_never_expires_witness :
    dictGet (exMgr0.set "k" (some 7) "default" 0).cache "k" =
      some { value := some 7, created_at := 0, ttl := none,
             expires_at := none, access_count := 0, last_accessed := 0 } ∧
    ((exMgr0.set "k" (some 7) "default" 0).get "k" 1000000000).1 = some 7 :=
  ⟨(c3_unknown_category_never_expires exMgr0 "k" (some 7) "default" 0
      (by decide)).1,
   (c3_unknown_category_never_expires exMgr0 "k" (some 7) "default" 0
      (by decide)).2 1000000000⟩

/-- C4: `get_stats` reports `total_requests = hits + misses`, the hit rate
`round(hits / total_requests * 100, 2)` when there was at least one
request and `0` when both counters are zero, and `total_entries` is the
current live entry count. -/
theorem c4_get_stats_correct {V : Type} (m : CacheManager V) :
    m.get_stats.total_requests = m.hits + m.misses ∧
    (0 < m.hits + m.misses →
       m.get_stats.hit_rate =
         pyRound2 (ratMul (ratDiv (mkRat (Int.ofNat m.hits) 1)
           (mkRat (Int.ofNat (m.hits + m.misses)) 1)) (mkRat 100 1))) ∧
    (m.hits = 0 → m.misses = 0 → m.get_stats.hit_rate = 0) ∧
    m.get_stats.total_entries = m.cache.length := by
  refine ⟨rfl, fun h => ?_, fun h1 h2 => ?_, rfl⟩
  · simp [CacheManager.get_stats, h]
  · simp [CacheManager.get_stats, h1, h2, pyRound2_zero]

/-- Witness for C4 at a manager with 3 hits and 1 miss, and at a fresh
manager with no requests. -/
theorem c4_get_stats_correct_witness :
    exMgrStats.get_stats.hit_rate =
      pyRound2 (ratMul (ratDiv (mkRat (Int.ofNat exMgrStats.hits) 1)
        (mkRat (Int.ofNat (exMgrStats.hits + exMgrStats.misses)) 1))
        (mkRat 100 1)) ∧
    exMgr0.get_stats.hit_rate = 0 :=
  ⟨(c4_get_stats_correct exMgrStats).2.1 (by decide),
   (c4_get_stats_correct exMgr0).2.2.1 rfl rfl⟩

/-- C5: `clear()` with no category removes everything, bumps `clears` and
returns the prior entry count; `clear(category)` removes exactly the
entries whose key starts with `category + "_"`, leaves the rest untouched,
bumps `clears` and returns the removed count. -/
theorem c5_clear_behavior {V : Type} (m : CacheManager V) (ct : String) :
    m.clear none =
      (m.cache.length, { m with cache := [], clears := m.clears + 1 }) ∧
    m.clear (some ct) =
      ((m.cache.filter (fun p => p.1.startsWith (ct ++ "_"))).length,
       { m with
           cache := m.cache.filter (fun p => !(p.1.startsWith (ct ++ "_"))),
           clears := m.clears + 1 }) := by
  refine ⟨rfl, ?_⟩
  have hrfl : m.clear (some ct) =
      (((m.cache.map Prod.fst).filter
          (fun k => k.startsWith (ct ++ "_"))).length,
       { m with
           cache := ((m.cache.map Prod.fst).filter
             (fun k => k.startsWith (ct ++ "_"))).foldl
               (fun c k => dictDel c k) m.cache,
           clears := m.clears + 1 }) := rfl
  have hkeys : ∀ p ∈ m.cache,
      (!(keyIn ((m.cache.map Prod.fst).filter
          (fun k => k.startsWith (ct ++ "_"))) p.1)) =
        !(p.1.startsWith (ct ++ "_")) := by
    intro p hp
    cases hs : p.1.startsWith (ct ++ "_") with
    | true =>
        have hmem : p.1 ∈ (m.cache.map Prod.fst).filter
            (fun k => k.startsWith (ct ++ "_")) :=
          List.mem_filter.2 ⟨List.mem_map_of_mem Prod.fst hp, hs⟩
        rw [keyIn_iff.2 hmem]
    | false =>
        cases hk : keyIn ((m.cache.map Prod.fst).filter
            (fun k => k.startsWith (ct ++ "_"))) p.1 with
        | false => rfl
        | true =>
            have hmem := keyIn_iff.1 hk
            have := (List.mem_filter.1 hmem).2
            rw [hs] at this
            cases this
  have hlen : ((m.cache.map Prod.fst).filter
      (fun k => k.startsWith (ct ++ "_"))).length =
        (m.cache.filter (fun p => p.1.startsWith (ct ++ "_"))).length := by
    rw [List.filter_map, List.length_map]
    rfl
  rw [hrfl, foldl_dictDel_eq_filter, List.filter_congr hkeys, hlen]

/-- C6: `cleanup_expired` removes exactly the entries expired at call
time, returns that count, and leaves the counters and every surviving
entry (value, access count, last-accessed time) unchanged. The key map of
a reachable manager has no duplicate keys. -/
theorem c6_cleanup_removes_exactly_expired {V : Type} (m : CacheManager V)
    (now : Nat) (hnd : (m.cache.map Prod.fst).Nodup) :
    m.cleanup_expired now =
      ((m.cache.filter (fun p => p.2.is_expired now)).length,
       { m with cache := m.cache.filter (fun p => !(p.2.is_expired now)) }) := by
  have hrfl : m.cleanup_expired now =
      (((m.cache.filter (fun p => p.2.is_expired now)).map Prod.fst).length,
       { m with
           cache := ((m.cache.filter (fun p => p.2.is_expired now)).map
             Prod.fst).foldl (fun c k => dictDel c k) m.cache }) := rfl
  have hkeys : ∀ p ∈ m.cache,
      (!(keyIn ((m.cache.filter (fun p => p.2.is_expired now)).map
          Prod.fst) p.1)) = !(p.2.is_expired now) := by
    intro p hp
    cases hs : p.2.is_expired now with
    | true =>
        have hmem : p.1 ∈ (m.cache.filter
            (fun p => p.2.is_expired now)).map Prod.fst :=
          List.mem_map_of_mem Prod.fst (List.mem_filter.2 ⟨hp, hs⟩)
        rw [keyIn_iff.2 hmem]
    | false =>
        cases hk : keyIn ((m.cache.filter (fun p => p.2.is_expired now)).map
            Prod.fst) p.1 with
        | false => rfl
        | true =>
          exfalso
          rcases List.mem_map.1 (keyIn_iff.1 hk) with ⟨q, hq, hq1⟩
          rcases List.mem_filter.1 hq with ⟨hqm, hqe⟩
          have hpq : p = q := eq_of_mem_of_nodup_keys hnd hp hqm hq1.symm
          rw [← hpq] at hqe
          rw [hs] at hqe
          cases hqe
  rw [hrfl, List.length_map, foldl_dictDel_eq_filter,
    List.filter_congr hkeys]

/-- Witness for C6 at a two-entry manager where exactly one entry is
expired at clock 99. -/
theorem c6_cleanup_removes_exactly_expired_witness :
    exMgrMix.cleanup_expired 99 =
      ((exMgrMix.cache.filter (fun p => p.2.is_expired 99)).length,
       { exMgrMix with
           cache := exMgrMix.cache.filter (fun p => !(p.2.is_expired 99)) }) :=
  c6_cleanup_removes_exactly_expired exMgrMix 99 (by decide)

/-- C7: the `cache_result` wrapper returns a present (non-`None`) cached
value without invoking the wrapped function; on a miss it invokes it
exactly once, stores a non-`None` result under the key and category, does
not store a `None` result, and returns whatever the function produced. -/
theorem c7_cache_result_behavior {V : Type} (m : CacheManager V)
    (cache_type cache_key : String) (fr : Option V) (now : Nat) :
    (∀ v : V, (m.get cache_key now).1 = some v →
       cache_result_call m cache_type cache_key fr now =
         (some v, (m.get cache_key now).2, 0)) ∧
    ((m.get cache_key now).1 = none → fr ≠ none →
       cache_result_call m cache_type cache_key fr now =
         (fr, ((m.get cache_key now).2).set cache_key fr cache_type now, 1)) ∧
    ((m.get cache_key now).1 = none → fr = none →
       cache_result_call m cache_type cache_key fr now =
         (none, (m.get cache_key now).2, 1)) := by
  refine ⟨fun v hv => ?_, fun h hfr => ?_, fun h hfr => ?_⟩
  · simp [cache_result_call, hv]
  · cases fr with
    | none => exact absurd rfl hfr
    | some w => simp [cache_result_call, h]
  · subst hfr
    simp [cache_result_call, h]

/-- Witness for C7: a hit on a live entry, and misses on a fresh manager
with a non-`None` and a `None` function result. -/
theorem c7_cache_result_behavior_witness :
    cache_result_call exMgrLive "team_logos" "k" (some 9) 3 =
      (some 5, (exMgrLive.get "k" 3).2, 0) ∧
    cache_result_call exMgr0 "team_logos" "k" (some 9) 3 =
      (some 9, ((exMgr0.get "k" 3).2).set "k" (some 9) "team_logos" 3, 1) ∧
    cache_result_call exMgr0 "team_logos" "k" none 3 =
      (none, (exMgr0.get "k" 3).2, 1) :=
  ⟨(c7_cache_result_behavior exMgrLive "team_logos" "k" (some 9) 3).1 5
     (by decide),
   (c7_cache_result_behavior exMgr0 "team_logos" "k" (some 9) 3).2.1
     (by decide) (by decide),
   (c7_cache_result_behavior exMgr0 "team_logos" "k" none 3).2.2
     (by decide) rfl⟩

theorem step_counters_le {V : Type} (m : CacheManager V) (op : CacheOp V) :
    m.hits ≤ (m.step op).hits ∧ m.misses ≤ (m.step op).misses ∧
    m.sets ≤ (m.step op).sets ∧ m.deletes ≤ (m.step op).deletes ∧
    m.clears ≤ (m.step op).clears := by
  cases op with
  | get k now =>
      simp only [CacheManager.step, CacheManager.get]
      cases dictGet m.cache k with
      | none => simp
      | some e =>
          by_cases h : e.is_expired now <;> simp [h, CacheEntry.access]
  | set k v ct now =>
      simp [CacheManager.step, CacheManager.set]
  | delete k =>
      simp only [CacheManager.step, CacheManager.delete]
      by_cases h : (dictGet m.cache k).isSome <;> simp [h]
  | clear ct =>
      cases ct <;> simp [CacheManager.step, CacheManager.clear]
  | cleanup_expired now =>
      simp [CacheManager.step, CacheManager.cleanup_expired]
  | get_stats => simp [CacheManager.step]

theorem step_evictions_eq {V : Type} (m : CacheManager V) (op : CacheOp V) :
    (m.step op).evictions = m.evictions := by
  cases op with
  | get k now =>
      simp only [CacheManager.step, CacheManager.get]
      cases dictGet m.cache k with
      | none => simp
      | some e =>
          by_cases h : e.is_expired now <;> simp [h, CacheEntry.access]
  | set k v ct now =>
      simp [CacheManager.step, CacheManager.set]
  | delete k =>
      simp only [CacheManager.step, CacheManager.delete]
      by_cases h : (dictGet m.cache k).isSome <;> simp [h]
  | clear ct =>
      cases ct <;> simp [CacheManager.step, CacheManager.clear]
  | cleanup_expired now =>
      simp [CacheManager.step, CacheManager.cleanup_expired]
  | get_stats => simp [CacheManager.step]

theorem run_evictions_eq {V : Type} (m : CacheManager V)
    (ops : List (CacheOp V)) : (m.run ops).evictions = m.evictions := by
  induction ops generalizing m with
  | nil => rfl
  | cons op ops ih =>
      show ((m.step op).run ops).evictions = m.evictions
      rw [ih (m.step op), step_evictions_eq]

/-- C8: across any sequence of operations, none of the counters `hits`,
`misses`, `sets`, `deletes`, `clears` ever decreases — in particular
`clear` never resets them. -/
theorem c8_counters_monotone {V : Type} (m : CacheManager V)
    (ops : List (CacheOp V)) :
    m.hits ≤ (m.run ops).hits ∧ m.misses ≤ (m.run ops).misses ∧
    m.sets ≤ (m.run ops).sets ∧ m.deletes ≤ (m.run ops).deletes ∧
    m.clears ≤ (m.run ops).clears := by
  induction ops generalizing m with
  | nil => exact ⟨le_refl _, le_refl _, le_refl _, le_refl _, le_refl _⟩
  | cons op ops ih =>
      have h1 := step_counters_le m op
      have h2 := ih (m.step op)
      have hrun : m.run (op :: ops) = (m.step op).run ops := rfl
      rw [hrun]
      exact ⟨le_trans h1.1 h2.1, le_trans h1.2.1 h2.2.1,
        le_trans h1.2.2.1 h2.2.2.1, le_trans h1.2.2.2.1 h2.2.2.2.1,
        le_trans h1.2.2.2.2 h2.2.2.2.2⟩

/-- C9: the entry and memory limits are never enforced: `set` leaves every
other key's entry untouched, no operation ever changes the `evictions`
counter (it stays at its initial `0`), and a sequence of `set`s under
pairwise-distinct keys starting from an empty map keeps every inserted
entry live, with the entry count equal to the number of keys regardless of
`max_entries`. -/
theorem c9_limits_not_enforced {V : Type} :
    (∀ (m : CacheManager V) (k k' : String) (v : Option V) (ct : String)
        (now : Nat), k' ≠ k →
       dictGet ((m.set k v ct now).cache) k' = dictGet m.cache k') ∧
    (∀ (m : CacheManager V) (ops : List (CacheOp V)),
       (m.run ops).evictions = m.evictions) ∧
    (∀ (m : CacheManager V) (ks : List String) (f : String → Option V)
        (ct : String) (now : Nat), m.cache = [] → ks.Nodup →
       (ks.foldl (fun acc k => acc.set k (f k) ct now) m).cache.length =
           ks.length ∧
       ∀ k ∈ ks,
         (dictGet (ks.foldl (fun acc k => acc.set k (f k) ct now) m).cache
           k).isSome = true) := by
  refine ⟨fun m k k' v ct now h => ?_, fun m ops => run_evictions_eq m ops,
    fun m ks f ct now hempty hnd => ?_⟩
  · exact dictGet_dictSet_ne m.cache k k' _ h
  · have hmap : (ks.foldl (fun acc k => acc.set k (f k) ct now) m).cache.map
        Prod.fst = ks := by
      rw [foldl_set_cache, foldl_dictSet_map_fst ks _ m.cache
        (fun k _ => by rw [hempty]; rfl) hnd, hempty]
      rfl
    constructor
    · have := congrArg List.length hmap
      rwa [List.length_map] at this
    · intro k hk
      rw [dictGet_isSome_iff, hmap]
      exact hk

/-- Witness for C9: a `set` under key `"a"` leaves key `"b"` alone, a
short operation sequence leaves `evictions` at 0, and three distinct-key
`set`s from a fresh manager keep all three entries live. -/
theorem c9_limits_not_enforced_witness :
    dictGet ((exMgr0.set "a" (some 1) "game_data" 0).cache) "b" =
      dictGet exMgr0.cache "b" ∧
    (exMgr0.run [CacheOp.set "a" (some 1) "game_data" 0,
      CacheOp.clear none]).evictions = exMgr0.evictions ∧
    (["a", "b", "c"].foldl
        (fun acc k => acc.set k (some 2) "team_logos" 5) exMgr0).cache.length =
      (["a", "b", "c"] : List String).length ∧
    (dictGet (["a", "b", "c"].foldl
        (fun acc k => acc.set k (some 2) "team_logos" 5) exMgr0).cache
      "b").isSome = true :=
  ⟨(c9_limits_not_enforced).1 exMgr0 "a" "b" (some 1) "game_data" 0
     (by decide),
   (c9_limits_not_enforced).2.1 exMgr0
     [CacheOp.set "a" (some 1) "game_data" 0, CacheOp.clear none],
   ((c9_limits_not_enforced).2.2 exMgr0 ["a", "b", "c"] (fun _ => some 2)
     "team_logos" 5 rfl (by decide)).1,
   ((c9_limits_not_enforced).2.2 exMgr0 ["a", "b", "c"] (fun _ => some 2)
     "team_logos" 5 rfl (by decide)).2 "b" (by decide)⟩

/-- C10: after `set(key, None, category)`, a `get` of the still-unexpired
entry returns `none` — the same sentinel as a miss — while counting a hit
and bumping the entry's access count to 1, and the `cache_result` wrapper
treats the cached `None` as a miss and invokes the wrapped function. -/
theorem c10_none_value_conflated {V : Type} (m : CacheManager V)
    (key cache_type : String) (fr : Option V) (now t : Nat)
    (hexp : (CacheEntry.make (none : Option V) (durationFor cache_type)
      now).is_expired t = false) :
    ((m.set key none cache_type now).get key t).1 = none ∧
    ((m.set key none cache_type now).get key t).2.hits = m.hits + 1 ∧
    (dictGet ((m.set key none cache_type now).get key t).2.cache key).map
        CacheEntry.access_count = some 1 ∧
    (cache_result_call (m.set key none cache_type now) cache_type key fr
      t).2.2 = 1 := by
  have hget : dictGet (m.set key none cache_type now).cache key =
      some (CacheEntry.make none (durationFor cache_type) now) := by
    simp [CacheManager.set, dictGet_dictSet_self]
  generalize hE : CacheEntry.make (none : Option V) (durationFor cache_type)
    now = e0 at hexp hget
  have hval : e0.value = none := by rw [← hE]; rfl
  have hacc : e0.access_count = 0 := by rw [← hE]; rfl
  have hrun : (m.set key none cache_type now).get key t =
      (e0.value,
       { (m.set key none cache_type now) with
           cache := dictSet (m.set key none cache_type now).cache key
             { e0 with access_count := e0.access_count + 1,
                       last_accessed := t }
           hits := (m.set key none cache_type now).hits + 1 }) := by
    simp [CacheManager.get, hget, hexp, CacheEntry.access]
  refine ⟨?_, ?_, ?_, ?_⟩
  · rw [hrun, hval]
  · rw [hrun]
    rfl
  · rw [hrun]
    simp [dictGet_dictSet_self, hacc]
  · simp [cache_result_call, hrun, hval]

/-- Witness for C10: a `None` value cached under the `"default"` bucket at
clock 0 and read at clock 1000000000. -/
theorem c10_none_value_conflated_witness :
    ((exMgr0.set "k" none "default" 0).get "k" 1000000000).1 = none ∧
    ((exMgr0.set "k" none "default" 0).get "k" 1000000000).2.hits =
      exMgr0.hits + 1 ∧
    (dictGet ((exMgr0.set "k" none "default" 0).get "k"
        1000000000).2.cache "k").map CacheEntry.access_count = some 1 ∧
    (cache_result_call (exMgr0.set "k" none "default" 0) "default" "k"
      (some 3) 1000000000).2.2 = 1 :=
  c10_none_value_conflated exMgr0 "k" "default" (some 3) 0 1000000000
    (by decide)

end GoobieBot
